import Mathlib

/-!
# Verification of the email-triage suggestion pipeline

A shallow embedding of the suggestion-resolution pipeline of the email-triage
assistant: the keyword rule engine (src/core/rules.py), the AI-response
normalisation (src/ai/integrations.py), the persistence layer
(src/db/crud.py, src/db/models.py) and the ingestion / re-evaluation
control flow (src/core/orchestrator.py, src/app.py).

Python floats are modelled as rationals (all confidence constants in the code
are exactly representable and compare identically), JSON documents as an
inductive `Json` value, the relational store as lists of rows in insertion
order, and `datetime.utcnow` timestamps as a strictly increasing clock `tick`
stamped on every insert, so that ORDER BY created-at DESC / FIRST is the last
matching list element.
-/

/-- JSON values, as produced by Python json.loads: objects are association
lists with unique keys (json.loads keeps the last duplicate, yielding a plain
dict). -/
inductive Json where
  | null
  | bool (b : Bool)
  | num (q : ℚ)
  | str (s : String)
  | arr (elems : List Json)
  | obj (fields : List (String × Json))
deriving Repr

mutual

def jsonDecEq : (a b : Json) → Decidable (a = b)
  | .null, .null => isTrue rfl
  | .bool a, .bool b =>
    if h : a = b then isTrue (by rw [h]) else isFalse fun hh => h (Json.bool.inj hh)
  | .num a, .num b =>
    if h : a = b then isTrue (by rw [h]) else isFalse fun hh => h (Json.num.inj hh)
  | .str a, .str b =>
    if h : a = b then isTrue (by rw [h]) else isFalse fun hh => h (Json.str.inj hh)
  | .arr xs, .arr ys =>
    match jsonListDecEq xs ys with
    | isTrue h => isTrue (by rw [h])
    | isFalse h => isFalse fun hh => h (Json.arr.inj hh)
  | .obj xs, .obj ys =>
    match jsonFieldsDecEq xs ys with
    | isTrue h => isTrue (by rw [h])
    | isFalse h => isFalse fun hh => h (Json.obj.inj hh)
  | .null, .bool _ => isFalse nofun
  | .null, .num _ => isFalse nofun
  | .null, .str _ => isFalse nofun
  | .null, .arr _ => isFalse nofun
  | .null, .obj _ => isFalse nofun
  | .bool _, .null => isFalse nofun
  | .bool _, .num _ => isFalse nofun
  | .bool _, .str _ => isFalse nofun
  | .bool _, .arr _ => isFalse nofun
  | .bool _, .obj _ => isFalse nofun
  | .num _, .null => isFalse nofun
  | .num _, .bool _ => isFalse nofun
  | .num _, .str _ => isFalse nofun
  | .num _, .arr _ => isFalse nofun
  | .num _, .obj _ => isFalse nofun
  | .str _, .null => isFalse nofun
  | .str _, .bool _ => isFalse nofun
  | .str _, .num _ => isFalse nofun
  | .str _, .arr _ => isFalse nofun
  | .str _, .obj _ => isFalse nofun
  | .arr _, .null => isFalse nofun
  | .arr _, .bool _ => isFalse nofun
  | .arr _, .num _ => isFalse nofun
  | .arr _, .str _ => isFalse nofun
  | .arr _, .obj _ => isFalse nofun
  | .obj _, .null => isFalse nofun
  | .obj _, .bool _ => isFalse nofun
  | .obj _, .num _ => isFalse nofun
  | .obj _, .str _ => isFalse nofun
  | .obj _, .arr _ => isFalse nofun

def jsonListDecEq : (a b : List Json) → Decidable (a = b)
  | [], [] => isTrue rfl
  | [], _ :: _ => isFalse nofun
  | _ :: _, [] => isFalse nofun
  | x :: xs, y :: ys =>
    match jsonDecEq x y, jsonListDecEq xs ys with
    | isTrue h1, isTrue h2 => isTrue (by rw [h1, h2])
    | isFalse h1, _ => isFalse fun hh => h1 (List.cons.inj hh).1
    | _, isFalse h2 => isFalse fun hh => h2 (List.cons.inj hh).2

def jsonFieldsDecEq : (a b : List (String × Json)) → Decidable (a = b)
  | [], [] => isTrue rfl
  | [], _ :: _ => isFalse nofun
  | _ :: _, [] => isFalse nofun
  | (k1, v1) :: xs, (k2, v2) :: ys =>
    match decEq k1 k2, jsonDecEq v1 v2, jsonFieldsDecEq xs ys with
    | isTrue hk, isTrue hv, isTrue ht => isTrue (by rw [hk, hv, ht])
    | isFalse hk, _, _ =>
      isFalse fun hh => hk (congrArg (fun p => p.1) (List.cons.inj hh).1)
    | _, isFalse hv, _ =>
      isFalse fun hh => hv (congrArg (fun p => p.2) (List.cons.inj hh).1)
    | _, _, isFalse ht => isFalse fun hh => ht (List.cons.inj hh).2

end

instance : DecidableEq Json := jsonDecEq

/-- Python dict lookup `d.get(k)` on a parsed JSON object (keys are unique
after json.loads, so the first match is the entry). -/
def jget (kvs : List (String × Json)) (k : String) : Option Json :=
  (kvs.find? (fun p => p.1 = k)).map (fun p => p.2)

/-- Python truthiness of a JSON value (`if x:`). -/
def Json.truthy : Json → Bool
  | .null => false
  | .bool b => b
  | .num q => q ≠ 0
  | .str s => s ≠ ""
  | .arr xs => !xs.isEmpty
  | .obj kvs => !kvs.isEmpty

/-! ## Rational confidence constants

The code compares Python floats 0.0, 0.6, 0.75, 0.8, 0.9; every comparison it
performs on these values coincides with the comparison of the exact rationals.
The constants are given as raw `Rat` structure literals so that the kernel can
evaluate them inside `decide` proofs. -/

/-- 0.6, the low-confidence threshold of the orchestrator. -/
def q06 : ℚ := ⟨3, 5, by decide, by decide⟩

/-- 0.75, the confidence of the interested rule. -/
def q075 : ℚ := ⟨3, 4, by decide, by decide⟩

/-- 0.8, the confidence of the not-interested rule. -/
def q08 : ℚ := ⟨4, 5, by decide, by decide⟩

/-- 0.9, the confidence of the escalation rule. -/
def q09 : ℚ := ⟨9, 10, by decide, by decide⟩

theorem q06_eq : q06 = 3 / 5 := by rw [q06]; norm_num [Rat.mk_eq_divInt, Rat.divInt_eq_div]

theorem q075_eq : q075 = 3 / 4 := by rw [q075]; norm_num [Rat.mk_eq_divInt, Rat.divInt_eq_div]

theorem q08_eq : q08 = 4 / 5 := by rw [q08]; norm_num [Rat.mk_eq_divInt, Rat.divInt_eq_div]

theorem q09_eq : q09 = 9 / 10 := by rw [q09]; norm_num [Rat.mk_eq_divInt, Rat.divInt_eq_div]

/-! ## Rule Engine (src/core/rules.py, rule_based_intent_and_action) -/

/-- Result triple of the rule engine: (intent, confidence_estimate,
suggested_action). -/
structure RuleResult where
  intent : String
  confidence : ℚ
  action : String
deriving DecidableEq, Repr

/-- Python str.lower (the keyword lists are ASCII, where Char.toLower agrees
with Python). -/
def pyLower (s : String) : String := String.mk (s.toList.map Char.toLower)

/-- Python substring test `needle in hay`. -/
def containsSub (hay needle : String) : Bool := decide (needle.toList <:+: hay.toList)

def interested_keywords : List String :=
  ["interested", "price", "pricing", "details", "need details", "can you share"]

def not_interested_keywords : List String :=
  ["not interested", "no thanks", "no thank", "don\x27t need", "do not need"]

def escalate_keywords : List String :=
  ["manager", "supervisor", "escalat", "complain", "urgent"]

/-- src/core/rules.py lines 4-31.  The argument is `Option String` so that the
Python call with `None` (`if not text`) is representable; `some ""` is the
falsy empty string.  The binding `txt = text.lower()` is inlined, and each
keyword loop, returning the same constant triple at the first match, is a
`List.any` test. -/
def rule_based_intent_and_action (text : Option String) : RuleResult :=
  match text with
  | none => ⟨"unknown", 0, "no-action"⟩
  | some t =>
    if t = "" then ⟨"unknown", 0, "no-action"⟩
    else if interested_keywords.any (fun k => containsSub (pyLower t) k) then
      ⟨"interested", q075, "send_pricing"⟩
    else if not_interested_keywords.any (fun k => containsSub (pyLower t) k) then
      ⟨"not_interested", q08, "close_thread"⟩
    else if escalate_keywords.any (fun k => containsSub (pyLower t) k) then
      ⟨"escalate", q09, "escalate_to_ops"⟩
    else ⟨"unknown", 0, "no-action"⟩

/-! ## Claims C8 and C10 about the rule engine -/

/-- Helper: the rule engine can only produce one of four constant triples. -/
theorem rule_result_cases (text : Option String) :
    rule_based_intent_and_action text = ⟨"interested", q075, "send_pricing"⟩ ∨
    rule_based_intent_and_action text = ⟨"not_interested", q08, "close_thread"⟩ ∨
    rule_based_intent_and_action text = ⟨"escalate", q09, "escalate_to_ops"⟩ ∨
    rule_based_intent_and_action text = ⟨"unknown", 0, "no-action"⟩ := by
  rcases text with _ | t
  · tauto
  · simp only [rule_based_intent_and_action]
    split_ifs <;> tauto

/-- C8: any text that case-insensitively contains both "pricing" and "urgent"
resolves to ("interested", 0.75, "send_pricing"): the interested keyword group
is tested before the escalation group, so the first matching group wins. -/
theorem C8_pricing_and_urgent (t : String)
    (hp : containsSub (pyLower t) "pricing" = true)
    (hu : containsSub (pyLower t) "urgent" = true) :
    rule_based_intent_and_action (some t) = ⟨"interested", q075, "send_pricing"⟩ := by
  have hne : ¬ t = "" := by
    intro h
    subst h
    exact absurd hp (by decide)
  have hany : interested_keywords.any (fun k => containsSub (pyLower t) k) = true :=
    List.any_eq_true.mpr ⟨"pricing", by decide, hp⟩
  simp only [rule_based_intent_and_action]
  rw [if_neg hne, if_pos hany]

/-- Witness for C8 at the concrete text "Urgent PRICING question". -/
theorem C8_pricing_and_urgent_witness :
    containsSub (pyLower "Urgent PRICING question") "pricing" = true ∧
    containsSub (pyLower "Urgent PRICING question") "urgent" = true ∧
    rule_based_intent_and_action (some "Urgent PRICING question") =
      ⟨"interested", q075, "send_pricing"⟩ :=
  ⟨by decide, by decide,
    C8_pricing_and_urgent "Urgent PRICING question" (by decide) (by decide)⟩

/-- C10: for every input (None, empty, or any string) the rule engine returns
exactly one of the four constant triples; hence confidence lies in the unit
interval, and intent "unknown", confidence 0 and action "no-action"
characterise each other. -/
theorem C10_rule_result_range (text : Option String) :
    (rule_based_intent_and_action text = ⟨"interested", q075, "send_pricing"⟩ ∨
     rule_based_intent_and_action text = ⟨"not_interested", q08, "close_thread"⟩ ∨
     rule_based_intent_and_action text = ⟨"escalate", q09, "escalate_to_ops"⟩ ∨
     rule_based_intent_and_action text = ⟨"unknown", 0, "no-action"⟩) ∧
    (0 ≤ (rule_based_intent_and_action text).confidence ∧
     (rule_based_intent_and_action text).confidence ≤ 1 ∧
     ((rule_based_intent_and_action text).intent = "unknown" ↔
       (rule_based_intent_and_action text).confidence = 0) ∧
     ((rule_based_intent_and_action text).confidence = 0 ↔
       (rule_based_intent_and_action text).action = "no-action")) := by
  refine ⟨rule_result_cases text, ?_⟩
  rcases rule_result_cases text with h | h | h | h <;> rw [h] <;> exact (by decide)

/-! ## Action selection (src/core/orchestrator.py lines 169-209) -/

/-- Python `s.strip()` is truthy exactly when `s` has a character that is not
whitespace (the texts involved are ASCII, where Char.isWhitespace agrees with
Python str.strip). -/
def stripTruthy (s : String) : Bool := s.toList.any (fun c => !c.isWhitespace)

/-- The intent/confidence/action triple the orchestrator persists, together
with its provenance tag ("ai" or "rule"). -/
structure SelectResult where
  intent : String
  confidence : ℚ
  action : String
  provenance : String
deriving DecidableEq, Repr

/-- The fixed intent-to-action elif chain of orchestrator lines 197-207;
unmapped intents leave the action at "no-action". -/
def default_action_for_intent (intent : String) : String :=
  if intent = "interested" then "send_pricing"
  else if intent = "not_interested" then "close_thread"
  else if intent = "cancel_request" ∨ intent = "cancel_booking_and_request_refund" then
    "start_cancellation_flow"
  else if intent = "escalation" ∨ intent = "request_escalation_to_manager" then
    "escalate_to_manager"
  else if intent = "request_group_availability_and_rates" ∨ intent = "group_availability" then
    "send_group_rates"
  else "no-action"

/-- Outcome of the Python call `rule_based_intent_and_action(m_body)` when the
body is an arbitrary JSON value: a string is classified normally, a falsy
value takes the `if not text` branch, and a truthy non-string raises
AttributeError at `text.lower()`, which the try/except around orchestrator
lines 174-209 catches. -/
inductive RuleCall where
  | ok (r : RuleResult)
  | raised
deriving DecidableEq, Repr

def ruleCallJson (v : Json) : RuleCall :=
  match v with
  | .str s => .ok (rule_based_intent_and_action (some s))
  | v => if v.truthy then .raised else .ok ⟨"unknown", 0, "no-action"⟩

/-- Orchestrator lines 169-209: choose the suggested action.  `ai_action` is
`getattr(ai_resp, "suggested_action", None)` (None when the classifier call
raised); `intent` and `confidence` are the classifier values (or
unknown / 0.0 on failure); `rule` is the outcome of the lazily evaluated rule
engine call on the message body.  When the rule call raises, the surrounding
except leaves the variables at the values already set. -/
def select_action (ai_action : Option String) (intent : String) (confidence : ℚ)
    (rule : RuleCall) : SelectResult :=
  let sa0 : String :=
    match ai_action with
    | some s =>
      if s ≠ "" then
        if stripTruthy s ∧ s ≠ "no-action" then s else "no-action"
      else "no-action"
    | none => "no-action"
  if sa0 = "no-action" then
    if intent = "unknown" ∨ confidence < q06 then
      match rule with
      | .raised => ⟨intent, confidence, "no-action", "ai"⟩
      | .ok r =>
        if r.confidence > confidence then ⟨r.intent, r.confidence, r.action, "rule"⟩
        else ⟨intent, confidence, "no-action", "ai"⟩
    else ⟨intent, confidence, default_action_for_intent intent, "ai"⟩
  else ⟨intent, confidence, sa0, "ai"⟩

/-- The action-selection priority order exactly as claim C4 states it
(the code-independent reading of the claim, compared against `select_action`
below).  "Non-empty string action" is read, per the normalisation the spec
itself prescribes, as containing a non-whitespace character. -/
def action_selection_claimed (ai_action : Option String) (intent : String)
    (confidence : ℚ) (body : Option String) : SelectResult :=
  match ai_action with
  | some s =>
    if stripTruthy s ∧ s ≠ "no-action" then ⟨intent, confidence, s, "ai"⟩
    else action_selection_claimed_fallback intent confidence body
  | none => action_selection_claimed_fallback intent confidence body
where
  /-- Steps (b) and (c) of the claim: rule-engine fallback, else fixed table. -/
  action_selection_claimed_fallback (intent : String) (confidence : ℚ)
      (body : Option String) : SelectResult :=
    if intent = "unknown" ∨ confidence < q06 then
      let r := rule_based_intent_and_action body
      if r.confidence > confidence then ⟨r.intent, r.confidence, r.action, "rule"⟩
      else ⟨intent, confidence, "no-action", "ai"⟩
    else ⟨intent, confidence, default_action_for_intent intent, "ai"⟩

/-- C4: for every message body (a string, as during ingestion), classifier
action, intent and confidence, the orchestrator's action selection equals the
priority order stated by the claim: a usable classifier action verbatim, else
the rule engine exactly when intent is unknown or confidence is below 0.6
(adopted only if strictly more confident), else the fixed intent table with
unmapped intents keeping "no-action". -/
theorem C4_action_selection (ai_action : Option String) (intent : String)
    (confidence : ℚ) (body : Option String) :
    select_action ai_action intent confidence
        (.ok (rule_based_intent_and_action body)) =
      action_selection_claimed ai_action intent confidence body := by
  rcases ai_action with _ | s
  · simp only [select_action, action_selection_claimed,
      action_selection_claimed.action_selection_claimed_fallback]
    simp
  · simp only [select_action, action_selection_claimed,
      action_selection_claimed.action_selection_claimed_fallback]
    by_cases hs : s = ""
    · subst hs
      simp [stripTruthy]
    · rw [if_pos hs]
      by_cases hu : stripTruthy s ∧ s ≠ "no-action"
      · rw [if_pos hu, if_pos hu]
        have : s ≠ "no-action" := hu.2
        rw [if_neg this]
      · rw [if_neg hu, if_neg hu, if_pos rfl]

/-! ## Data model (src/db/models.py) and relational store

Rows are kept in insertion order; every insert stamps the strictly increasing
store clock `tick` as both the fresh primary key and the created-at /
timestamp value, so ORDER BY created-at DESC / FIRST is the last matching
list element. -/

/-- pydantic FieldSpec (src/ai/integrations.py lines 20-23): hint and required
are Optional with defaults None and True. -/
structure FieldSpec where
  name : String
  hint : Option String
  required : Option Bool
deriving DecidableEq, Repr

/-- The rf_payload dict built at orchestrator line 211. -/
structure RequiredFieldsPayload where
  customer : Option (List FieldSpec)
  responder : Option (List FieldSpec)
deriving DecidableEq, Repr

/-- email_threads row.  The subject/sender/recipient/body columns hold
whatever JSON value the upload supplied (SQLite stores non-strings as-is). -/
structure ThreadRow where
  id : Nat
  subject : Json
  sender : Json
  recipient : Json
  body : Json
  status : String
  timestamp : Nat
deriving DecidableEq, Repr

/-- email_messages row. -/
structure MessageRow where
  id : Nat
  thread_id : Nat
  sender : Json
  recipient : Json
  body : Json
  timestamp : Nat
deriving DecidableEq, Repr

/-- ai_suggestions row.  required_fields is stored structurally (the
json.dumps serialisation is invertible on this payload); raw_response holds
the audit blob, which no claim reads. -/
structure SuggestionRow where
  id : Nat
  message_id : Nat
  intent : String
  confidence : ℚ
  suggested_action : String
  required_fields : Option RequiredFieldsPayload
  follow_up_question : Option String
  raw_response : Option String
  created_at : Nat
deriving DecidableEq, Repr

/-- user_decisions row. -/
structure DecisionRow where
  id : Nat
  suggestion_id : Nat
  user : String
  decision : String
  note : Option String
  created_at : Nat
deriving DecidableEq, Repr

/-- email_drafts row (customer/responder provided values stored
structurally). -/
structure DraftRow where
  id : Nat
  thread_id : Nat
  message_id : Option Nat
  suggestion_id : Option Nat
  body : String
  status : String
  created_at : Nat
  sent_at : Option Nat
  customer_provided : Option (List (String × String))
  responder_provided : Option (List (String × String))
deriving DecidableEq, Repr

/-- The five tables plus the clock. -/
structure Store where
  threads : List ThreadRow
  messages : List MessageRow
  suggestions : List SuggestionRow
  decisions : List DecisionRow
  drafts : List DraftRow
  tick : Nat
deriving DecidableEq, Repr

def emptyStore : Store := ⟨[], [], [], [], [], 0⟩

/-! ## CRUD layer (src/db/crud.py) -/

/-- crud.create_thread: insert with status default "pending". -/
def create_thread (s : Store) (subject sender recipient body : Json) :
    Store × ThreadRow :=
  let t : ThreadRow :=
    { id := s.tick, subject := subject, sender := sender, recipient := recipient,
      body := body, status := "pending", timestamp := s.tick }
  ({ s with threads := s.threads ++ [t], tick := s.tick + 1 }, t)

/-- The filter of crud.get_thread_by_keys. -/
def thread_key_matches (subject sender recipient : Json) (t : ThreadRow) : Bool :=
  decide (t.subject = subject) && decide (t.sender = sender) &&
    decide (t.recipient = recipient)

/-- crud.get_thread_by_keys: filter by the triple, ORDER BY timestamp DESC,
first — i.e. the last matching row in insertion order. -/
def get_thread_by_keys (s : Store) (subject sender recipient : Json) :
    Option ThreadRow :=
  s.threads.reverse.find? (thread_key_matches subject sender recipient)

/-- crud.get_or_create_thread. -/
def get_or_create_thread (s : Store) (subject sender recipient body : Json) :
    Store × ThreadRow :=
  match get_thread_by_keys s subject sender recipient with
  | some t => (s, t)
  | none => create_thread s subject sender recipient body

/-- crud.create_message. -/
def create_message (s : Store) (thread_id : Nat) (sender recipient body : Json) :
    Store × MessageRow :=
  let m : MessageRow :=
    { id := s.tick, thread_id := thread_id, sender := sender, recipient := recipient,
      body := body, timestamp := s.tick }
  ({ s with messages := s.messages ++ [m], tick := s.tick + 1 }, m)

/-- crud.get_message_by_thread_and_body (last matching row in insertion
order). -/
def get_message_by_thread_and_body (s : Store) (thread_id : Nat) (body : Json) :
    Option MessageRow :=
  s.messages.reverse.find?
    (fun m => decide (m.thread_id = thread_id) && decide (m.body = body))

/-- crud.create_ai_suggestion (the json.dumps of required_fields is kept
structurally). -/
def create_ai_suggestion (s : Store) (message_id : Nat) (intent : String)
    (confidence : ℚ) (suggested_action : String)
    (required_fields : Option RequiredFieldsPayload)
    (follow_up_question : Option String) (raw_response : Option String) :
    Store × SuggestionRow :=
  let sug : SuggestionRow :=
    { id := s.tick, message_id := message_id, intent := intent,
      confidence := confidence, suggested_action := suggested_action,
      required_fields := required_fields, follow_up_question := follow_up_question,
      raw_response := raw_response, created_at := s.tick }
  ({ s with suggestions := s.suggestions ++ [sug], tick := s.tick + 1 }, sug)

/-- crud.record_user_decision. -/
def record_user_decision (s : Store) (suggestion_id : Nat) (user decision : String)
    (note : Option String) : Store × DecisionRow :=
  let dec : DecisionRow :=
    { id := s.tick, suggestion_id := suggestion_id, user := user,
      decision := decision, note := note, created_at := s.tick }
  ({ s with decisions := s.decisions ++ [dec], tick := s.tick + 1 }, dec)

/-- crud.get_latest_suggestion_for_message (last matching row in insertion
order). -/
def get_latest_suggestion_for_message (s : Store) (message_id : Nat) :
    Option SuggestionRow :=
  s.suggestions.reverse.find? (fun r => decide (r.message_id = message_id))

/-- crud.has_accepted_decision_for_message: latest suggestion, then existence
of a decision row with value accept for it. -/
def has_accepted_decision_for_message (s : Store) (message_id : Nat) : Bool :=
  match get_latest_suggestion_for_message s message_id with
  | none => false
  | some latest =>
    s.decisions.any
      (fun d => decide (d.suggestion_id = latest.id) && decide (d.decision = "accept"))

/-- crud.create_email_draft (sent_at starts NULL; the status attribute is set
from the argument, default draft). -/
def create_email_draft (s : Store) (thread_id : Nat) (body : String)
    (message_id suggestion_id : Option Nat)
    (customer_provided responder_provided : Option (List (String × String)))
    (status : String) : Store × DraftRow :=
  let d : DraftRow :=
    { id := s.tick, thread_id := thread_id, message_id := message_id,
      suggestion_id := suggestion_id, body := body, status := status,
      created_at := s.tick, sent_at := none,
      customer_provided := customer_provided, responder_provided := responder_provided }
  ({ s with drafts := s.drafts ++ [d], tick := s.tick + 1 }, d)

/-- crud.mark_draft_sent (lines 159-169): look the draft up by id; if absent
return None, otherwise unconditionally set status to sent and sent_at to
utcnow (the current clock), commit, and return the row. -/
def mark_draft_sent (s : Store) (draft_id : Nat) : Store × Option DraftRow :=
  match s.drafts.find? (fun d => decide (d.id = draft_id)) with
  | none => (s, none)
  | some d =>
    let d2 : DraftRow := { d with status := "sent", sent_at := some s.tick }
    let updated := s.drafts.map (fun x => if x.id = draft_id then d2 else x)
    ({ s with drafts := updated, tick := s.tick + 1 }, some d2)

/-! ## Intent classifier result (src/ai/integrations.py, IntentResponse) -/

/-- The pydantic IntentResponse model: suggested_action defaults to
"no-action", the optional fields to None. -/
structure IntentResult where
  intent : String
  confidence : ℚ
  suggested_action : String
  required_fields_customer : Option (List FieldSpec)
  required_fields_responder : Option (List FieldSpec)
  follow_up_question : Option String
deriving DecidableEq, Repr

/-- IntentResponse(intent="unknown", confidence=0.0) with the pydantic
defaults: the safe fallback result of get_intent. -/
def safeDefaultIntent : IntentResult :=
  ⟨"unknown", 0, "no-action", none, none, none⟩

/-! ## Ingestion pipeline (src/core/orchestrator.py, process_email_threads)

The classifier is a parameter `ai : Json → Option IntentResult` applied to the
message body (the single user turn sent to get_intent); `none` models a
raised exception, upon which the orchestrator falls back to
unknown / 0.0 / no action. -/

/-- The defaulted field reads of orchestrator lines 97-100 (thread entries)
and 111-113 (message entries). -/
def entry_subject (i : Nat) (kvs : List (String × Json)) : Json :=
  (jget kvs "subject").getD (.str ("no-subject-" ++ toString i))

def entry_sender (kvs : List (String × Json)) : Json := (jget kvs "sender").getD (.str "")

def entry_recipient (kvs : List (String × Json)) : Json :=
  (jget kvs "recipient").getD (.str "")

def entry_body (kvs : List (String × Json)) : Json := (jget kvs "body").getD (.str "")

/-- orchestrator lines 111-121: resolve the message row for one message
object, reusing an existing row with the same (thread_id, body). -/
def message_row_for (s : Store) (thread_id : Nat) (kvs : List (String × Json)) :
    Store × MessageRow :=
  match get_message_by_thread_and_body s thread_id (entry_body kvs) with
  | some existing => (s, existing)
  | none => create_message s thread_id (entry_sender kvs) (entry_recipient kvs) (entry_body kvs)

/-- orchestrator lines 109-253: process one entry of a thread's messages
list.  A non-object entry raises AttributeError at `m.get`, which the inner
try/except turns into a skip.  The legacy `required_fields` attribute read at
line 154 is always None for an IntentResponse, so the legacy branch never
fires here.  The json.dumps audit blob (raw_response) is not modelled
(stored as none; no claim reads it). -/
def process_message_entry (ai : Json → Option IntentResult) (s : Store)
    (thread_id : Nat) (m : Json) : Store :=
  match m with
  | .obj kvs =>
    let m_body := entry_body kvs
    let sm := message_row_for s thread_id kvs
    if has_accepted_decision_for_message sm.1 sm.2.id then sm.1
    else
      let aiRes := ai m_body
      let intent := match aiRes with | some r => r.intent | none => "unknown"
      let confidence : ℚ := match aiRes with | some r => r.confidence | none => 0
      let ai_action : Option String :=
        match aiRes with | some r => some r.suggested_action | none => none
      let rfc := match aiRes with | some r => r.required_fields_customer | none => none
      let rfr := match aiRes with | some r => r.required_fields_responder | none => none
      let fu := match aiRes with | some r => r.follow_up_question | none => none
      let sel := select_action ai_action intent confidence (ruleCallJson m_body)
      (create_ai_suggestion sm.1 sm.2.id sel.intent sel.confidence sel.action
        (some ⟨rfc, rfr⟩) fu none).1
  | _ => s

/-- Summary dict appended to `saved` (orchestrator lines 255-263). -/
structure ThreadSummary where
  id : Nat
  subject : Json
  sender : Json
  recipient : Json
  status : String
deriving DecidableEq, Repr

/-- Iteration behaviour of `for m in t.get("messages", [])`: a missing key
yields the empty default, an array its elements, a string its characters and
an object its keys (each a non-object value which the per-message handler
skips), while a number, boolean or null raises TypeError, caught by the
per-thread handler after the thread row was already resolved. -/
inductive MessagesIter where
  | elems (ms : List Json)
  | typeError
deriving DecidableEq, Repr

def messages_iter (kvs : List (String × Json)) : MessagesIter :=
  match jget kvs "messages" with
  | none => .elems []
  | some (.arr xs) => .elems xs
  | some (.str s) => .elems (s.toList.map (fun c => .str (String.mk [c])))
  | some (.obj fs) => .elems (fs.map (fun kv => .str kv.1))
  | some _ => .typeError

/-- orchestrator lines 95-266: one entry of the uploaded thread list, with its
index `i` (used for the default subject).  A non-object entry raises
AttributeError at `t.get`, caught by the per-thread handler (skipped, no
summary); a TypeError from the messages iteration likewise skips the summary,
but only after the thread row was resolved. -/
def process_thread_entry (ai : Json → Option IntentResult) (s : Store) (i : Nat)
    (t : Json) : Store × Option ThreadSummary :=
  match t with
  | .obj kvs =>
    let st := get_or_create_thread s (entry_subject i kvs) (entry_sender kvs)
      (entry_recipient kvs) (entry_body kvs)
    match messages_iter kvs with
    | .elems ms =>
      let s2 := ms.foldl (fun acc m => process_message_entry ai acc st.2.id m) st.1
      (s2, some ⟨st.2.id, st.2.subject, st.2.sender, st.2.recipient, st.2.status⟩)
    | .typeError => (st.1, none)
  | _ => (s, none)

/-- The enumerate-fold over the normalised thread list (orchestrator
lines 92-266), accumulating the saved summaries. -/
def process_thread_list (ai : Json → Option IntentResult) (s : Store)
    (threads : List Json) : Store × List ThreadSummary :=
  threads.enum.foldl
    (fun (acc : Store × List ThreadSummary) it =>
      match process_thread_entry ai acc.1 it.1 it.2 with
      | (s2, some summ) => (s2, acc.2 ++ [summ])
      | (s2, none) => (s2, acc.2))
    (s, [])

/-- orchestrator lines 66-271.  `input` is the json.loads outcome of the
uploaded file (`none` models a read or parse failure).  The top-level
normalisation accepts a dict whose "threads" key holds a list, or a bare
list; anything else is logged and nothing is processed. -/
def process_email_threads (ai : Json → Option IntentResult) (input : Option Json)
    (s : Store) : Store × List ThreadSummary :=
  match input with
  | none => (s, [])
  | some (.obj kvs) =>
    match jget kvs "threads" with
    | some (.arr xs) => process_thread_list ai s xs
    | _ => (s, [])
  | some (.arr xs) => process_thread_list ai s xs
  | some _ => (s, [])

/-! ## Manual re-evaluation (src/app.py lines 351-397) -/

/-- app.py lines 373-396: the persistence gate of the re-evaluate handler.
`latest.confidence or 0.0` is the identity on a stored rational confidence;
this path passes required_fields = None (`getattr(ai_resp, "required_fields",
None)` is always None for an IntentResponse) and no raw_response. -/
def reevaluate_finish (s : Store) (mm : MessageRow) (latest : Option SuggestionRow)
    (intent : String) (confidence : ℚ) (action : String) (fu : Option String) :
    Store :=
  let should_create : Bool :=
    match latest with
    | none => true
    | some l => decide (confidence > l.confidence)
  if should_create && decide (confidence > 0) then
    (create_ai_suggestion s mm.id intent confidence action none fu none).1
  else s

/-- app.py lines 352-396: re-evaluate one message row of a thread.  Returns
`none` when the `rule_based_intent_and_action(mm.body)` call raises
AttributeError (body a truthy non-string), which aborts the click handler
uncaught.  Note: unlike the orchestrator, this path adopts the rule result
unconditionally when the classifier says unknown or non-positive confidence,
maps only interested / not_interested, and never consults decisions. -/
def reevaluate_message (ai : Json → Option IntentResult) (s : Store)
    (mm : MessageRow) : Option Store :=
  let latest := get_latest_suggestion_for_message s mm.id
  let aiRes := ai mm.body
  let intent := match aiRes with | some r => r.intent | none => "unknown"
  let confidence : ℚ := match aiRes with | some r => r.confidence | none => 0
  let fu := match aiRes with | some r => r.follow_up_question | none => none
  if intent = "unknown" ∨ confidence ≤ 0 then
    match ruleCallJson mm.body with
    | .raised => none
    | .ok r => some (reevaluate_finish s mm latest r.intent r.confidence r.action fu)
  else
    some (reevaluate_finish s mm latest intent confidence
      (if intent = "interested" then "send_pricing"
       else if intent = "not_interested" then "close_thread"
       else "no-action") fu)

/-! ## Claim C6: end-to-end scenario with a failing classifier -/

/-- A classifier whose call fails: get_intent degrades any failure to the safe
default IntentResponse("unknown", 0.0) with no action (see C5 below). -/
def classifier_failure : Json → Option IntentResult := fun _ => some safeDefaultIntent

/-- The single thread of the C6 scenario, with its one message, wrapped in the
one-element ingestion array (the accepted envelope for a single thread). -/
def c6Input : Json :=
  .arr [.obj [("subject", .str "S"), ("sender", .str "a@x.com"),
              ("recipient", .str "b@x.com"), ("body", .str "hi"),
              ("messages", .arr [.obj [("sender", .str "a@x.com"),
                                       ("recipient", .str "b@x.com"),
                                       ("body", .str "Can you share pricing?")]])]]

/-- C6: ingesting the C6 thread into an empty store while the classifier
fails produces exactly one Thread row (with the given key), exactly one
Message row (with the given body), and exactly one Suggestion row with
intent "interested", confidence 0.75 and action "send_pricing" (the rule
fallback: "pricing" is an interested keyword). -/
theorem C6_end_to_end :
    ((process_email_threads classifier_failure (some c6Input) emptyStore).1.threads.map
        (fun t => (t.subject, t.sender, t.recipient)) =
       [(.str "S", .str "a@x.com", .str "b@x.com")]) ∧
    ((process_email_threads classifier_failure (some c6Input) emptyStore).1.messages.map
        (fun m => m.body) = [.str "Can you share pricing?"]) ∧
    ((process_email_threads classifier_failure (some c6Input) emptyStore).1.suggestions.map
        (fun r => (r.intent, r.confidence, r.suggested_action)) =
       [("interested", q075, "send_pricing")]) ∧
    q075 = 3 / 4 :=
  ⟨by decide, by decide, by decide, q075_eq⟩

/-! ## Claim C9: malformed ingestion input -/

/-- The top-level shapes the ingestion accepts: a JSON array, or an object
whose "threads" key holds a list; `none` stands for a read/parse failure. -/
def well_formed_ingestion_input : Option Json → Bool
  | none => false
  | some (.arr _) => true
  | some (.obj kvs) =>
    match jget kvs "threads" with
    | some (.arr _) => true
    | _ => false
  | some _ => false

/-- C9: on unparseable input, or a parsed document that is neither an array
nor an object containing a "threads" list, process_email_threads returns the
empty list and leaves the store completely unchanged. -/
theorem C9_malformed_input (ai : Json → Option IntentResult) (s : Store)
    (input : Option Json) (h : well_formed_ingestion_input input = false) :
    process_email_threads ai input s = (s, []) := by
  rcases input with _ | d
  · rfl
  · rcases d with _ | b | q | t | xs | kvs
    · rfl
    · rfl
    · rfl
    · rfl
    · exact absurd h (by simp [well_formed_ingestion_input])
    · have hred : process_email_threads ai (some (.obj kvs)) s =
          (match jget kvs "threads" with
           | some (.arr xs) => process_thread_list ai s xs
           | _ => (s, [])) := rfl
      have hwf : well_formed_ingestion_input (some (.obj kvs)) =
          (match jget kvs "threads" with
           | some (.arr _) => true
           | _ => false) := rfl
      rw [hred]
      rw [hwf] at h
      rcases hj : jget kvs "threads" with _ | v
      · rfl
      · rcases v with _ | b2 | q2 | t2 | xs2 | kvs2 <;> simp_all

/-- Witness for C9: the malformed inputs `3` and an object without a
"threads" list are rejected without any write. -/
theorem C9_malformed_input_witness :
    well_formed_ingestion_input (some (.num 3)) = false ∧
    process_email_threads classifier_failure (some (.num 3)) emptyStore =
      (emptyStore, []) ∧
    well_formed_ingestion_input (some (.obj [("threads", .num 1)])) = false ∧
    process_email_threads classifier_failure (some (.obj [("threads", .num 1)]))
        emptyStore = (emptyStore, []) :=
  ⟨by decide, C9_malformed_input classifier_failure emptyStore (some (.num 3)) (by decide),
   by decide,
   C9_malformed_input classifier_failure emptyStore (some (.obj [("threads", .num 1)]))
     (by decide)⟩

/-! ## Claim C1: the suggestion-persistence gate

The confidence/monotonicity gate exists only in the manual re-evaluation
handler (app.py lines 373-381); the ingestion path (orchestrator line 240)
persists every computed result unconditionally. -/

/-- A one-thread upload whose single message body matches no rule keyword, so
the computed suggestion has confidence 0.0. -/
def c1Input : Json := .arr [.obj [("messages", .arr [.obj [("body", .str "zzz")]])]]

/-- Counterexample to C1: with a failing classifier, ingesting `c1Input` into
an empty store persists a Suggestion row with confidence 0.0 (the claim
requires confidence strictly greater than 0.0 for any new row), and ingesting
the same input a second time persists a second row although its confidence
does not strictly exceed the latest prior one. -/
theorem C1_counterexample :
    ((process_email_threads classifier_failure (some c1Input) emptyStore).1.suggestions.map
        (fun r => r.confidence) = [0]) ∧
    ((process_email_threads classifier_failure (some c1Input)
        (process_email_threads classifier_failure (some c1Input) emptyStore).1).1.suggestions.map
        (fun r => r.confidence) = [0, 0]) := by
  constructor
  · decide
  · decide

/-- Helper: resolving the message row touches only the messages table. -/
theorem message_row_for_suggestions (s : Store) (tid : Nat)
    (kvs : List (String × Json)) :
    (message_row_for s tid kvs).1.suggestions = s.suggestions := by
  simp only [message_row_for]
  rcases h : get_message_by_thread_and_body s tid (entry_body kvs) with _ | m <;> rfl

/-- Helper: the persistence gate of the re-evaluation handler either leaves
the store untouched or appends exactly one row whose confidence is positive
and strictly exceeds the latest prior suggestion's. -/
theorem reevaluate_finish_spec (s : Store) (mm : MessageRow)
    (latest : Option SuggestionRow) (intent : String) (c : ℚ) (action : String)
    (fu : Option String) :
    reevaluate_finish s mm latest intent c action fu = s ∨
    ∃ row : SuggestionRow,
      (reevaluate_finish s mm latest intent c action fu).suggestions =
          s.suggestions ++ [row] ∧
        0 < row.confidence ∧
        ∀ l, latest = some l → l.confidence < row.confidence := by
  simp only [reevaluate_finish]
  split
  case isTrue hcond =>
    right
    rw [Bool.and_eq_true] at hcond
    refine ⟨⟨s.tick, mm.id, intent, c, action, none, fu, none, s.tick⟩, rfl, ?_, ?_⟩
    · exact of_decide_eq_true hcond.2
    · intro l hl
      subst hl
      exact of_decide_eq_true hcond.1
  case isFalse => exact Or.inl rfl

/-- C1 (amended): the persistence gate holds on the manual re-evaluation path
only — there, the store is left unchanged unless the gate passes, in which
case exactly one row with positive confidence strictly above the latest prior
suggestion's is appended.  During ingestion, a message that is not suppressed
by an accepted decision always gets exactly one new Suggestion row, whatever
the computed confidence. -/
theorem C1_amended_gate :
    (∀ (ai : Json → Option IntentResult) (s : Store) (mm : MessageRow) (s2 : Store),
        reevaluate_message ai s mm = some s2 →
        s2 = s ∨
          ∃ row : SuggestionRow,
            s2.suggestions = s.suggestions ++ [row] ∧ 0 < row.confidence ∧
              ∀ l, get_latest_suggestion_for_message s mm.id = some l →
                l.confidence < row.confidence) ∧
    (∀ (ai : Json → Option IntentResult) (s : Store) (tid : Nat)
        (kvs : List (String × Json)),
        has_accepted_decision_for_message (message_row_for s tid kvs).1
            (message_row_for s tid kvs).2.id = false →
        (process_message_entry ai s tid (.obj kvs)).suggestions.length =
          s.suggestions.length + 1) := by
  constructor
  · intro ai s mm s2 h
    simp only [reevaluate_message] at h
    split at h
    · split at h
      · exact absurd h (by simp)
      · cases h
        exact reevaluate_finish_spec s mm _ _ _ _ _
    · cases h
      exact reevaluate_finish_spec s mm _ _ _ _ _
  · intro ai s tid kvs h
    simp only [process_message_entry]
    rw [if_neg (by rw [h]; exact Bool.false_ne_true)]
    simp [create_ai_suggestion, message_row_for_suggestions]

/-- Witness for C1 (amended): the re-evaluation of a fresh message whose body
matches no keyword (computed confidence 0.0) leaves the empty store
unchanged, and the ingestion of the same body into an empty store appends one
Suggestion row. -/
theorem C1_amended_gate_witness :
    (emptyStore = emptyStore ∨
      ∃ row : SuggestionRow,
        emptyStore.suggestions = emptyStore.suggestions ++ [row] ∧
          0 < row.confidence ∧
          ∀ l, get_latest_suggestion_for_message emptyStore 7 = some l →
            l.confidence < row.confidence) ∧
    (process_message_entry classifier_failure emptyStore 0
        (.obj [("body", .str "zzz")])).suggestions.length =
      emptyStore.suggestions.length + 1 :=
  ⟨C1_amended_gate.1 classifier_failure emptyStore
      ⟨7, 0, .str "", .str "", .str "zzz", 0⟩ emptyStore (by decide),
   C1_amended_gate.2 classifier_failure emptyStore 0 [("body", .str "zzz")] (by decide)⟩

/-! ## Claim C2: suppression after an accepted decision

The accepted-decision check exists only in the ingestion path (orchestrator
lines 123-128); the manual re-evaluation handler (app.py lines 351-397) never
consults the decisions table. -/

/-- 0.5, the confidence of the pre-existing accepted suggestion in the C2
scenario. -/
def q05 : ℚ := ⟨1, 2, by decide, by decide⟩

/-- A store holding one thread, one message with body "urgent please", a
latest suggestion with confidence 0.5 for it, and an accepted decision on
that suggestion; paired with the message row. -/
def acceptedSetup : Store × MessageRow :=
  let st := create_thread emptyStore (.str "S") (.str "a") (.str "b") (.str "")
  let sm := create_message st.1 st.2.id (.str "a") (.str "b") (.str "urgent please")
  let sg := create_ai_suggestion sm.1 sm.2.id "interested" q05 "send_pricing"
    none none none
  let sd := record_user_decision sg.1 sg.2.id "demo_user" "accept" none
  (sd.1, sm.2)

/-- Counterexample to C2: the message's latest suggestion has an accepted
decision, yet a manual re-evaluation (failing classifier, rule fallback
"urgent" with confidence 0.9 exceeding the accepted 0.5) appends a second
Suggestion row. -/
theorem C2_counterexample :
    has_accepted_decision_for_message acceptedSetup.1 acceptedSetup.2.id = true ∧
    (reevaluate_message classifier_failure acceptedSetup.1 acceptedSetup.2).map
        (fun s2 => s2.suggestions.length) = some 2 := by
  constructor
  · decide
  · decide

/-- Helper: the latest-suggestion query ignores the decisions table. -/
theorem get_latest_ignores_decisions (s : Store) (ds : List DecisionRow) (mid : Nat) :
    get_latest_suggestion_for_message { s with decisions := ds } mid =
      get_latest_suggestion_for_message s mid := rfl

/-- Helper: the re-evaluation gate commutes with replacing the decisions
table (it never reads it). -/
theorem reevaluate_finish_decisions (s : Store) (ds : List DecisionRow)
    (mm : MessageRow) (latest : Option SuggestionRow) (intent : String) (c : ℚ)
    (action : String) (fu : Option String) :
    reevaluate_finish { s with decisions := ds } mm latest intent c action fu =
      { reevaluate_finish s mm latest intent c action fu with decisions := ds } := by
  simp only [reevaluate_finish]
  by_cases hc : ((match latest with
      | none => true
      | some l => decide (c > l.confidence)) && decide (c > 0)) = true
  · rw [if_pos hc, if_pos hc]
    rfl
  · rw [if_neg hc, if_neg hc]

/-- C2 (amended): re-ingestion is indeed suppressed — once the resolved
message row has an accepted decision, the ingestion step returns the store as
it stood after message resolution, creating nothing — but the manual
re-evaluation handler is insensitive to the decisions table: its outcome on a
store with any decisions rows equals its outcome without them, so an accepted
decision cannot suppress it (and a higher-confidence recomputation appends a
new row, as the counterexample shows). -/
theorem C2_amended_suppression :
    (∀ (ai : Json → Option IntentResult) (s : Store) (tid : Nat)
        (kvs : List (String × Json)),
        has_accepted_decision_for_message (message_row_for s tid kvs).1
            (message_row_for s tid kvs).2.id = true →
        process_message_entry ai s tid (.obj kvs) = (message_row_for s tid kvs).1) ∧
    (∀ (ai : Json → Option IntentResult) (s : Store) (ds : List DecisionRow)
        (mm : MessageRow),
        reevaluate_message ai { s with decisions := ds } mm =
          (reevaluate_message ai s mm).map (fun s2 => { s2 with decisions := ds })) := by
  constructor
  · intro ai s tid kvs h
    simp only [process_message_entry]
    rw [if_pos h]
  · intro ai s ds mm
    simp only [reevaluate_message, get_latest_ignores_decisions]
    split
    · rcases hrc : ruleCallJson mm.body with r | _ <;>
        simp [reevaluate_finish_decisions]
    · simp [reevaluate_finish_decisions]

/-- Witness for C2 (amended): the concrete accepted store of the
counterexample is left unchanged by re-ingestion of its message, and the
re-evaluation handler run on the same store with the decisions table cleared
gives the decision-stripped version of the original outcome. -/
theorem C2_amended_suppression_witness :
    process_message_entry classifier_failure acceptedSetup.1 0
        (.obj [("body", .str "urgent please")]) =
      (message_row_for acceptedSetup.1 0 [("body", .str "urgent please")]).1 ∧
    reevaluate_message classifier_failure
        { acceptedSetup.1 with decisions := [] } acceptedSetup.2 =
      (reevaluate_message classifier_failure acceptedSetup.1 acceptedSetup.2).map
        (fun s2 => { s2 with decisions := [] }) :=
  ⟨C2_amended_suppression.1 classifier_failure acceptedSetup.1 0
      [("body", .str "urgent please")] (by decide),
   C2_amended_suppression.2 classifier_failure acceptedSetup.1 [] acceptedSetup.2⟩

/-! ## Claim C3: draft send is not guarded against double-send -/

/-- A store with one thread and one draft (status "draft", sent_at NULL),
paired with the draft row. -/
def draftSetup : Store × DraftRow :=
  let st := create_thread emptyStore (.str "S") (.str "a") (.str "b") (.str "")
  create_email_draft st.1 st.2.id "reply body" none none none none "draft"

/-- Counterexample to C3: sending the draft once sets status "sent" and
sent_at to clock 2; sending it a second time leaves status "sent" but
overwrites sent_at to clock 3 — the claim requires the second invocation to
leave sent_at unchanged. -/
theorem C3_counterexample :
    ((mark_draft_sent draftSetup.1 draftSetup.2.id).1.drafts.map
        (fun d => (d.status, d.sent_at)) = [("sent", some 2)]) ∧
    ((mark_draft_sent (mark_draft_sent draftSetup.1 draftSetup.2.id).1
          draftSetup.2.id).1.drafts.map
        (fun d => (d.status, d.sent_at)) = [("sent", some 3)]) := by
  constructor
  · decide
  · decide

/-- C3 (amended): mark_draft_sent has no double-send guard: every invocation
on an existing draft — whatever its current status — sets status to "sent"
and overwrites sent_at with the current clock (and advances the clock), so a
second send keeps status "sent" but changes sent_at. -/
theorem C3_amended_unguarded (s : Store) (draft_id : Nat) (d : DraftRow)
    (h : s.drafts.find? (fun x => decide (x.id = draft_id)) = some d) :
    (mark_draft_sent s draft_id).2 =
      some { d with status := "sent", sent_at := some s.tick } ∧
    (mark_draft_sent s draft_id).1.tick = s.tick + 1 := by
  unfold mark_draft_sent
  rw [h]
  exact ⟨rfl, rfl⟩

/-- Witness for C3 (amended) on the concrete one-draft store. -/
theorem C3_amended_unguarded_witness :
    draftSetup.1.drafts.find? (fun x => decide (x.id = draftSetup.2.id)) =
      some draftSetup.2 ∧
    (mark_draft_sent draftSetup.1 draftSetup.2.id).2 =
      some { draftSetup.2 with status := "sent", sent_at := some draftSetup.1.tick } ∧
    (mark_draft_sent draftSetup.1 draftSetup.2.id).1.tick = draftSetup.1.tick + 1 :=
  ⟨by decide,
   (C3_amended_unguarded draftSetup.1 draftSetup.2.id draftSetup.2 (by decide)).1,
   (C3_amended_unguarded draftSetup.1 draftSetup.2.id draftSetup.2 (by decide)).2⟩

/-! ## Claim C7: idempotent re-ingestion

Helper lemmas about what each pipeline step does to the threads and messages
tables, leading to: a second run of the ingestion over the same input creates
no thread or message row. -/

/-- get_thread_by_keys reads only the threads table. -/
theorem get_thread_by_keys_congr (s s2 : Store) (h : s2.threads = s.threads)
    (a b c : Json) : get_thread_by_keys s2 a b c = get_thread_by_keys s a b c := by
  unfold get_thread_by_keys
  rw [h]

/-- get_message_by_thread_and_body reads only the messages table. -/
theorem get_message_congr (s s2 : Store) (h : s2.messages = s.messages)
    (tid : Nat) (b : Json) :
    get_message_by_thread_and_body s2 tid b =
      get_message_by_thread_and_body s tid b := by
  unfold get_message_by_thread_and_body
  rw [h]

/-- Appending a row that fails the filter does not change a latest-match
query. -/
theorem find?_reverse_append_neg {α : Type} (l : List α) (x : α) (p : α → Bool)
    (hx : ¬ p x = true) :
    ((l ++ [x]).reverse.find? p) = l.reverse.find? p := by
  simp only [List.reverse_append, List.reverse_singleton, List.singleton_append]
  exact List.find?_cons_of_neg _ hx

/-- A latest-match hit survives appending further rows. -/
theorem find?_reverse_append_isSome {α : Type} (l t : List α) (p : α → Bool)
    (h : (l.reverse.find? p).isSome = true) :
    ((l ++ t).reverse.find? p).isSome = true := by
  rw [List.find?_isSome] at h ⊢
  obtain ⟨x, hx, hpx⟩ := h
  rw [List.mem_reverse] at hx
  exact ⟨x, by rw [List.mem_reverse]; exact List.mem_append_left _ hx, hpx⟩

/-- message_row_for leaves the threads table alone. -/
theorem message_row_for_threads (s : Store) (tid : Nat)
    (kvs : List (String × Json)) :
    (message_row_for s tid kvs).1.threads = s.threads := by
  simp only [message_row_for]
  rcases h : get_message_by_thread_and_body s tid (entry_body kvs) with _ | m <;> rfl

/-- message_row_for appends at most one message row. -/
theorem message_row_for_messages_mono (s : Store) (tid : Nat)
    (kvs : List (String × Json)) :
    ∃ tail, (message_row_for s tid kvs).1.messages = s.messages ++ tail := by
  simp only [message_row_for]
  rcases h : get_message_by_thread_and_body s tid (entry_body kvs) with _ | m
  · exact ⟨_, rfl⟩
  · exact ⟨[], by simp⟩

/-- When the (thread_id, body) pair is already present, message_row_for
returns the store untouched. -/
theorem message_row_for_found (s : Store) (tid : Nat) (kvs : List (String × Json))
    (h : (get_message_by_thread_and_body s tid (entry_body kvs)).isSome = true) :
    (message_row_for s tid kvs).1 = s := by
  simp only [message_row_for]
  rcases hm : get_message_by_thread_and_body s tid (entry_body kvs) with _ | m
  · rw [hm] at h
    cases h
  · rfl

/-- After message_row_for, the (thread_id, body) pair is present. -/
theorem message_row_for_establishes (s : Store) (tid : Nat)
    (kvs : List (String × Json)) :
    (get_message_by_thread_and_body (message_row_for s tid kvs).1 tid
      (entry_body kvs)).isSome = true := by
  by_cases h : (get_message_by_thread_and_body s tid (entry_body kvs)).isSome = true
  · have hs := message_row_for_found s tid kvs h
    rw [get_message_congr s _ (by rw [hs])]
    exact h
  · have hnone : get_message_by_thread_and_body s tid (entry_body kvs) = none :=
      Option.not_isSome_iff_eq_none.mp (by simpa using h)
    simp only [message_row_for, hnone]
    unfold get_message_by_thread_and_body create_message
    simp only [List.reverse_append, List.reverse_singleton, List.singleton_append]
    rw [List.find?_cons_of_pos _ (by simp)]
    rfl

/-- process_message_entry leaves the threads table alone. -/
theorem pme_threads (ai : Json → Option IntentResult) (s : Store) (tid : Nat)
    (m : Json) : (process_message_entry ai s tid m).threads = s.threads := by
  rcases m with _ | b | q | t | xs | kvs
  case obj =>
    simp only [process_message_entry]
    split
    · exact message_row_for_threads s tid kvs
    · exact message_row_for_threads s tid kvs
  all_goals rfl

/-- The messages table after process_message_entry on an object is exactly the
one after message resolution (the suggestion step never touches it). -/
theorem pme_messages_eq (ai : Json → Option IntentResult) (s : Store) (tid : Nat)
    (kvs : List (String × Json)) :
    (process_message_entry ai s tid (.obj kvs)).messages =
      (message_row_for s tid kvs).1.messages := by
  simp only [process_message_entry]
  split
  · rfl
  · rfl

/-- process_message_entry appends at most one message row. -/
theorem pme_messages_mono (ai : Json → Option IntentResult) (s : Store) (tid : Nat)
    (m : Json) :
    ∃ tail, (process_message_entry ai s tid m).messages = s.messages ++ tail := by
  rcases m with _ | b | q | t | xs | kvs
  case obj =>
    rw [pme_messages_eq]
    exact message_row_for_messages_mono s tid kvs
  all_goals exact ⟨[], by rw [List.append_nil]; rfl⟩

/-- After processing a message object, its (thread_id, body) pair is
present. -/
theorem pme_establishes (ai : Json → Option IntentResult) (s : Store) (tid : Nat)
    (kvs : List (String × Json)) :
    (get_message_by_thread_and_body (process_message_entry ai s tid (.obj kvs))
      tid (entry_body kvs)).isSome = true := by
  rw [get_message_congr (message_row_for s tid kvs).1 _ (pme_messages_eq ai s tid kvs)]
  exact message_row_for_establishes s tid kvs

/-- A presence hit is stable under any extension of the messages table. -/
theorem msg_present_mono (s s2 : Store) (tid : Nat) (b : Json)
    (htail : ∃ tail, s2.messages = s.messages ++ tail)
    (h : (get_message_by_thread_and_body s tid b).isSome = true) :
    (get_message_by_thread_and_body s2 tid b).isSome = true := by
  obtain ⟨tail, ht⟩ := htail
  unfold get_message_by_thread_and_body at h ⊢
  rw [ht]
  exact find?_reverse_append_isSome _ _ _ h

/-- When the key triple is present, get_or_create_thread reuses the row and
leaves the store untouched. -/
theorem goc_found (s : Store) (a b c d : Json) (T : ThreadRow)
    (h : get_thread_by_keys s a b c = some T) :
    get_or_create_thread s a b c d = (s, T) := by
  unfold get_or_create_thread
  rw [h]

/-- get_or_create_thread never touches the messages table. -/
theorem goc_messages (s : Store) (a b c d : Json) :
    (get_or_create_thread s a b c d).1.messages = s.messages := by
  unfold get_or_create_thread
  rcases h : get_thread_by_keys s a b c with _ | T <;> rfl

/-- After get_or_create_thread, the key triple resolves to the returned
row. -/
theorem goc_resolves (s : Store) (a b c d : Json) :
    get_thread_by_keys (get_or_create_thread s a b c d).1 a b c =
      some (get_or_create_thread s a b c d).2 := by
  unfold get_or_create_thread
  rcases h : get_thread_by_keys s a b c with _ | T
  · unfold get_thread_by_keys create_thread
    simp only [List.reverse_append, List.reverse_singleton, List.singleton_append]
    rw [List.find?_cons_of_pos _ (by simp [thread_key_matches])]
  · exact h

/-- An existing latest-match for any key triple survives
get_or_create_thread: a row is only appended when its own triple was absent,
and such a row cannot be the latest match of a present triple. -/
theorem goc_preserves (s : Store) (a b c d K1 K2 K3 : Json) (T : ThreadRow)
    (h : get_thread_by_keys s K1 K2 K3 = some T) :
    get_thread_by_keys (get_or_create_thread s a b c d).1 K1 K2 K3 = some T := by
  unfold get_or_create_thread
  rcases hg : get_thread_by_keys s a b c with _ | T2
  · by_cases hm : thread_key_matches K1 K2 K3
        ⟨s.tick, a, b, c, d, "pending", s.tick⟩ = true
    · exfalso
      simp only [thread_key_matches, Bool.and_eq_true, decide_eq_true_eq] at hm
      obtain ⟨⟨h1, h2⟩, h3⟩ := hm
      rw [h1, h2, h3] at hg
      rw [h] at hg
      cases hg
    · show get_thread_by_keys (create_thread s a b c d).1 K1 K2 K3 = some T
      unfold get_thread_by_keys at h ⊢
      show (s.threads ++ [(⟨s.tick, a, b, c, d, "pending", s.tick⟩ : ThreadRow)]).reverse.find?
          (thread_key_matches K1 K2 K3) = some T
      exact (find?_reverse_append_neg _ _ _ hm).trans h
  · exact h

/-- An entry of the upload is established in a store when its key triple
resolves to some thread row and, for every message object it carries, the
(thread id, body) pair is already present.  The predicate reads only the
threads and messages tables. -/
def entryEstablished (s : Store) (i : Nat) (t : Json) : Prop :=
  match t with
  | .obj kvs =>
    ∃ T : ThreadRow,
      get_thread_by_keys s (entry_subject i kvs) (entry_sender kvs)
          (entry_recipient kvs) = some T ∧
        ∀ ms, messages_iter kvs = .elems ms →
          ∀ m ∈ ms, ∀ mkvs, m = .obj mkvs →
            (get_message_by_thread_and_body s T.id (entry_body mkvs)).isSome = true
  | _ => True

/-- entryEstablished depends only on the threads and messages tables. -/
theorem entryEstablished_congr (s s2 : Store) (ht : s2.threads = s.threads)
    (hm : s2.messages = s.messages) (i : Nat) (t : Json)
    (h : entryEstablished s i t) : entryEstablished s2 i t := by
  rcases t with _ | b | q | st | xs | kvs
  case obj =>
    obtain ⟨T, hT, hmsg⟩ := h
    refine ⟨T, ?_, ?_⟩
    · rw [get_thread_by_keys_congr s s2 ht]
      exact hT
    · intro ms hms m hmem mkvs hmk
      rw [get_message_congr s s2 hm]
      exact hmsg ms hms m hmem mkvs hmk
  all_goals trivial

/-- Folding a message list never touches the threads table. -/
theorem msgfold_threads (ai : Json → Option IntentResult) (tid : Nat)
    (ms : List Json) : ∀ s : Store,
    (ms.foldl (fun acc m => process_message_entry ai acc tid m) s).threads =
      s.threads := by
  induction ms with
  | nil => intro s; rfl
  | cons m rest ih =>
    intro s
    rw [List.foldl_cons, ih, pme_threads]

/-- Folding a message list only appends message rows. -/
theorem msgfold_messages_mono (ai : Json → Option IntentResult) (tid : Nat)
    (ms : List Json) : ∀ s : Store,
    ∃ tail,
      (ms.foldl (fun acc m => process_message_entry ai acc tid m) s).messages =
        s.messages ++ tail := by
  induction ms with
  | nil => intro s; exact ⟨[], by rw [List.append_nil]; rfl⟩
  | cons m rest ih =>
    intro s
    rw [List.foldl_cons]
    obtain ⟨t1, h1⟩ := pme_messages_mono ai s tid m
    obtain ⟨t2, h2⟩ := ih (process_message_entry ai s tid m)
    exact ⟨t1 ++ t2, by rw [h2, h1, List.append_assoc]⟩

/-- After folding a message list, every message object of the list has its
(thread id, body) pair present. -/
theorem msgfold_establishes (ai : Json → Option IntentResult) (tid : Nat)
    (ms : List Json) : ∀ (s : Store), ∀ m ∈ ms, ∀ mkvs, m = .obj mkvs →
    (get_message_by_thread_and_body
        (ms.foldl (fun acc m2 => process_message_entry ai acc tid m2) s) tid
        (entry_body mkvs)).isSome = true := by
  induction ms with
  | nil => intro s m hm; cases hm
  | cons m0 rest ih =>
    intro s m hm mkvs hmk
    rw [List.foldl_cons]
    rcases List.mem_cons.mp hm with h0 | hrest
    · subst h0
      subst hmk
      exact msg_present_mono _ _ _ _
        (msgfold_messages_mono ai tid rest _)
        (pme_establishes ai s tid mkvs)
    · exact ih _ m hrest mkvs hmk

/-- A latest thread match survives process_thread_entry. -/
theorem pte_preserves_lookup (ai : Json → Option IntentResult) (s : Store) (i : Nat)
    (t : Json) (K1 K2 K3 : Json) (T : ThreadRow)
    (h : get_thread_by_keys s K1 K2 K3 = some T) :
    get_thread_by_keys (process_thread_entry ai s i t).1 K1 K2 K3 = some T := by
  rcases t with _ | b | q | st | xs | kvs
  case obj =>
    simp only [process_thread_entry]
    cases hmi : messages_iter kvs
    case elems ms =>
      rw [get_thread_by_keys_congr
        (get_or_create_thread s (entry_subject i kvs) (entry_sender kvs)
          (entry_recipient kvs) (entry_body kvs)).1 _
        (msgfold_threads ai _ ms _)]
      exact goc_preserves s _ _ _ _ K1 K2 K3 T h
    case typeError =>
      exact goc_preserves s _ _ _ _ K1 K2 K3 T h
  all_goals exact h

/-- process_thread_entry only appends message rows. -/
theorem pte_messages_mono (ai : Json → Option IntentResult) (s : Store) (i : Nat)
    (t : Json) :
    ∃ tail, (process_thread_entry ai s i t).1.messages = s.messages ++ tail := by
  rcases t with _ | b | q | st | xs | kvs
  case obj =>
    simp only [process_thread_entry]
    cases hmi : messages_iter kvs
    case elems ms =>
      obtain ⟨tail, htail⟩ := msgfold_messages_mono ai
        (get_or_create_thread s (entry_subject i kvs) (entry_sender kvs)
          (entry_recipient kvs) (entry_body kvs)).2.id ms
        (get_or_create_thread s (entry_subject i kvs) (entry_sender kvs)
          (entry_recipient kvs) (entry_body kvs)).1
      exact ⟨tail, by rw [htail, goc_messages]⟩
    case typeError =>
      exact ⟨[], by rw [List.append_nil, goc_messages]⟩
  all_goals exact ⟨[], by rw [List.append_nil]; rfl⟩

/-- Processing any entry preserves establishment of any entry. -/
theorem pte_preserves_established (ai : Json → Option IntentResult) (s : Store)
    (i2 : Nat) (t2 : Json) (i : Nat) (t : Json) (h : entryEstablished s i t) :
    entryEstablished (process_thread_entry ai s i2 t2).1 i t := by
  rcases t with _ | b | q | st | xs | kvs
  case obj =>
    obtain ⟨T, hT, hmsg⟩ := h
    refine ⟨T, pte_preserves_lookup ai s i2 t2 _ _ _ T hT, ?_⟩
    intro ms hms m hmem mkvs hmk
    exact msg_present_mono s _ _ _ (pte_messages_mono ai s i2 t2)
      (hmsg ms hms m hmem mkvs hmk)
  all_goals trivial

/-- Processing an entry establishes it. -/
theorem pte_establish (ai : Json → Option IntentResult) (s : Store) (i : Nat)
    (t : Json) : entryEstablished (process_thread_entry ai s i t).1 i t := by
  rcases t with _ | b | q | st | xs | kvs
  case obj =>
    simp only [process_thread_entry, entryEstablished]
    cases hmi : messages_iter kvs
    case elems ms =>
      refine ⟨(get_or_create_thread s (entry_subject i kvs) (entry_sender kvs)
        (entry_recipient kvs) (entry_body kvs)).2, ?_, ?_⟩
      · rw [get_thread_by_keys_congr
          (get_or_create_thread s (entry_subject i kvs) (entry_sender kvs)
            (entry_recipient kvs) (entry_body kvs)).1 _
          (msgfold_threads ai _ ms _)]
        exact goc_resolves s _ _ _ _
      · intro ms2 hms2 m hmem mkvs hmk
        cases hms2
        exact msgfold_establishes ai _ ms _ m hmem mkvs hmk
    case typeError =>
      refine ⟨(get_or_create_thread s (entry_subject i kvs) (entry_sender kvs)
        (entry_recipient kvs) (entry_body kvs)).2, goc_resolves s _ _ _ _, ?_⟩
      intro ms2 hms2
      cases hms2
  all_goals trivial

/-- When an entry is already established, processing it leaves the threads
and messages tables unchanged. -/
theorem msgfold_noop (ai : Json → Option IntentResult) (tid : Nat)
    (ms : List Json) : ∀ s : Store,
    (∀ m ∈ ms, ∀ mkvs, m = .obj mkvs →
      (get_message_by_thread_and_body s tid (entry_body mkvs)).isSome = true) →
    (ms.foldl (fun acc m => process_message_entry ai acc tid m) s).threads =
        s.threads ∧
      (ms.foldl (fun acc m => process_message_entry ai acc tid m) s).messages =
        s.messages := by
  induction ms with
  | nil => intro s h; exact ⟨rfl, rfl⟩
  | cons m0 rest ih =>
    intro s h
    rw [List.foldl_cons]
    have h0 : (process_message_entry ai s tid m0).messages = s.messages := by
      rcases m0 with _ | b | q | st | xs | mkvs
      case obj =>
        rw [pme_messages_eq]
        rw [message_row_for_found s tid mkvs (h _ (List.mem_cons_self _ _) mkvs rfl)]
      all_goals rfl
    have h1 : (process_message_entry ai s tid m0).threads = s.threads :=
      pme_threads ai s tid m0
    obtain ⟨ih1, ih2⟩ := ih (process_message_entry ai s tid m0)
      (fun m hm mkvs hmk => by
        rw [get_message_congr s _ h0]
        exact h m (List.mem_cons_of_mem _ hm) mkvs hmk)
    exact ⟨ih1.trans h1, ih2.trans h0⟩

/-- Processing an established entry changes neither the threads nor the
messages table. -/
theorem pte_noop (ai : Json → Option IntentResult) (s : Store) (i : Nat)
    (t : Json) (h : entryEstablished s i t) :
    (process_thread_entry ai s i t).1.threads = s.threads ∧
      (process_thread_entry ai s i t).1.messages = s.messages := by
  rcases t with _ | b | q | st | xs | kvs
  case obj =>
    obtain ⟨T, hT, hmsg⟩ := h
    simp only [process_thread_entry]
    rw [goc_found s _ _ _ _ T hT]
    cases hmi : messages_iter kvs
    case elems ms =>
      exact msgfold_noop ai T.id ms s (fun m hm mkvs hmk => hmsg ms hmi m hm mkvs hmk)
    case typeError =>
      exact ⟨rfl, rfl⟩
  all_goals exact ⟨rfl, rfl⟩

/-- The store component of process_thread_list, as a plain fold over the
enumerated entries (the saved-summaries component does not feed back into the
store). -/
def ingest_store (ai : Json → Option IntentResult) (s : Store)
    (l : List (Nat × Json)) : Store :=
  l.foldl (fun acc it => (process_thread_entry ai acc it.1 it.2).1) s

theorem ptl_fold_fst (ai : Json → Option IntentResult) (l : List (Nat × Json)) :
    ∀ (s : Store) (acc : List ThreadSummary),
    (l.foldl
      (fun (a : Store × List ThreadSummary) it =>
        match process_thread_entry ai a.1 it.1 it.2 with
        | (s2, some summ) => (s2, a.2 ++ [summ])
        | (s2, none) => (s2, a.2))
      (s, acc)).1 = ingest_store ai s l := by
  induction l with
  | nil => intro s acc; rfl
  | cons it rest ih =>
    intro s acc
    rw [List.foldl_cons]
    show (rest.foldl _ (match process_thread_entry ai s it.1 it.2 with
      | (s2, some summ) => (s2, acc ++ [summ])
      | (s2, none) => (s2, acc))).1 = _
    rcases hpe : process_thread_entry ai s it.1 it.2 with ⟨s2, osum⟩
    rcases osum with _ | summ
    · rw [ih s2 acc]
      show ingest_store ai s2 rest = ingest_store ai
        (process_thread_entry ai s it.1 it.2).1 rest
      rw [hpe]
    · rw [ih s2 (acc ++ [summ])]
      show ingest_store ai s2 rest = ingest_store ai
        (process_thread_entry ai s it.1 it.2).1 rest
      rw [hpe]

theorem process_thread_list_store (ai : Json → Option IntentResult) (s : Store)
    (threads : List Json) :
    (process_thread_list ai s threads).1 = ingest_store ai s threads.enum :=
  ptl_fold_fst ai threads.enum s []

/-- Establishment survives the rest of an ingestion run. -/
theorem ingest_preserves_established (ai : Json → Option IntentResult)
    (l : List (Nat × Json)) : ∀ (s : Store) (i : Nat) (t : Json),
    entryEstablished s i t → entryEstablished (ingest_store ai s l) i t := by
  induction l with
  | nil => intro s i t h; exact h
  | cons it0 rest ih =>
    intro s i t h
    exact ih _ i t (pte_preserves_established ai s it0.1 it0.2 i t h)

/-- After one ingestion run, every entry of the input is established. -/
theorem ingest_establishes (ai : Json → Option IntentResult)
    (l : List (Nat × Json)) : ∀ s : Store,
    ∀ it ∈ l, entryEstablished (ingest_store ai s l) it.1 it.2 := by
  induction l with
  | nil => intro s it h; cases h
  | cons it0 rest ih =>
    intro s it hmem
    rcases List.mem_cons.mp hmem with h0 | hr
    · subst h0
      exact ingest_preserves_established ai rest _ it.1 it.2
        (pte_establish ai s it.1 it.2)
    · exact ih _ it hr

/-- A second ingestion run over established entries changes neither threads
nor messages. -/
theorem ingest_noop (ai : Json → Option IntentResult) (l : List (Nat × Json)) :
    ∀ (s1 s : Store), s.threads = s1.threads → s.messages = s1.messages →
    (∀ it ∈ l, entryEstablished s1 it.1 it.2) →
    (ingest_store ai s l).threads = s1.threads ∧
      (ingest_store ai s l).messages = s1.messages := by
  induction l with
  | nil => intro s1 s ht hm h; exact ⟨ht, hm⟩
  | cons it0 rest ih =>
    intro s1 s ht hm h
    have hest : entryEstablished s it0.1 it0.2 :=
      entryEstablished_congr s1 s ht hm it0.1 it0.2
        (h it0 (List.mem_cons_self _ _))
    obtain ⟨h1, h2⟩ := pte_noop ai s it0.1 it0.2 hest
    exact ih s1 _ (h1.trans ht) (h2.trans hm)
      (fun it hit => h it (List.mem_cons_of_mem _ hit))

/-- C7: running the ingestion twice over the same input (with any classifier
behaviour on either run) creates no new Thread row and no new Message row:
the second run reuses the rows the first run resolved or created. -/
theorem C7_ingestion_idempotent (ai1 ai2 : Json → Option IntentResult)
    (input : Option Json) (s0 : Store) :
    (process_email_threads ai2 input
        (process_email_threads ai1 input s0).1).1.threads =
      (process_email_threads ai1 input s0).1.threads ∧
    (process_email_threads ai2 input
        (process_email_threads ai1 input s0).1).1.messages =
      (process_email_threads ai1 input s0).1.messages := by
  have key : ∀ xs : List Json,
      (process_thread_list ai2 (process_thread_list ai1 s0 xs).1 xs).1.threads =
        (process_thread_list ai1 s0 xs).1.threads ∧
      (process_thread_list ai2 (process_thread_list ai1 s0 xs).1 xs).1.messages =
        (process_thread_list ai1 s0 xs).1.messages := by
    intro xs
    rw [process_thread_list_store, process_thread_list_store]
    exact ingest_noop ai2 xs.enum _ _ rfl rfl (ingest_establishes ai1 xs.enum s0)
  rcases input with _ | d
  · exact ⟨rfl, rfl⟩
  · rcases d with _ | b | q | t | xs | kvs
    · exact ⟨rfl, rfl⟩
    · exact ⟨rfl, rfl⟩
    · exact ⟨rfl, rfl⟩
    · exact ⟨rfl, rfl⟩
    · exact key xs
    · have hred : ∀ (ai : Json → Option IntentResult) (s : Store),
          process_email_threads ai (some (.obj kvs)) s =
            (match jget kvs "threads" with
             | some (.arr xs) => process_thread_list ai s xs
             | _ => (s, [])) := fun _ _ => rfl
      rcases hj : jget kvs "threads" with _ | v
      · simp only [hred, hj]
        trivial
      · rcases v with _ | b2 | q2 | t2 | xs2 | kvs2
        · simp only [hred, hj]; trivial
        · simp only [hred, hj]; trivial
        · simp only [hred, hj]; trivial
        · simp only [hred, hj]; trivial
        · simp only [hred, hj]; exact key xs2
        · simp only [hred, hj]; trivial

/-! ## Claim C5: get_intent error handling (src/ai/integrations.py lines 34-156)

The provider call and the heterogeneous SDK response shapes are modelled
explicitly; every textual content is abstracted by the outcomes of the two
json.loads attempts get_intent performs on it (the byte-level JSON grammar is
not re-modelled: the function consumes only those parse results). -/

/-- pydantic FieldSpec(**obj): name must be a string; hint is Optional[str]
(default None, null accepted); required is Optional[bool] (default True,
null accepted); anything else fails validation. -/
def fieldSpecOfJson : Json → Option FieldSpec
  | .obj kvs =>
    match jget kvs "name" with
    | some (.str n) =>
      match (match jget kvs "hint" with
             | none => some none
             | some .null => some none
             | some (.str h) => some (some h)
             | some _ => none : Option (Option String)),
            (match jget kvs "required" with
             | none => some (some true)
             | some .null => some none
             | some (.bool b) => some (some b)
             | some _ => none : Option (Option Bool)) with
      | some h, some r => some ⟨n, h, r⟩
      | _, _ => none
    | _ => none
  | _ => none

/-- pydantic IntentResponse(**kvs): intent must be a string and confidence a
number; suggested_action is a string with default "no-action"; the two
required-fields lists are Optional lists of FieldSpec-validating objects;
follow_up_question is Optional[str]; extra keys are ignored.  (Lax coercions
beyond JSON values, such as numeric strings, are not modelled.) -/
def intentResponseOfDict (kvs : List (String × Json)) : Option IntentResult := do
  let it ← match jget kvs "intent" with
    | some (.str s) => some s
    | _ => none
  let cf ← match jget kvs "confidence" with
    | some (.num q) => some q
    | _ => none
  let sa ← match jget kvs "suggested_action" with
    | none => some "no-action"
    | some (.str s) => some s
    | _ => none
  let rfc ← match jget kvs "required_fields_customer" with
    | none => some none
    | some .null => some none
    | some (.arr xs) => (xs.mapM fieldSpecOfJson).map some
    | some _ => none
  let rfr ← match jget kvs "required_fields_responder" with
    | none => some none
    | some .null => some none
    | some (.arr xs) => (xs.mapM fieldSpecOfJson).map some
    | some _ => none
  let fu ← match jget kvs "follow_up_question" with
    | none => some none
    | some .null => some none
    | some (.str s) => some (some s)
    | some _ => none
  pure ⟨it, cf, sa, rfc, rfr, fu⟩

/-- isinstance(val.get("required_fields"), list). -/
def hasLegacyList (kvs : List (String × Json)) : Bool :=
  match jget kvs "required_fields" with
  | some (.arr _) => true
  | _ => false

/-- Python dict assignment d[k] = v on a parsed (unique-key) dict. -/
def setKey (kvs : List (String × Json)) (k : String) (v : Json) :
    List (String × Json) :=
  if (kvs.find? (fun p => p.1 = k)).isSome then
    kvs.map (fun p => if p.1 = k then (k, v) else p)
  else kvs ++ [(k, v)]

/-- The legacy normalisation (integrations lines 79-85 and its copies):
collect the string items of the flat required_fields list into
name/hint/required dicts, assign them to required_fields_customer, and retry
the pydantic validation. -/
def legacyRetry (kvs : List (String × Json)) : Option IntentResult :=
  match jget kvs "required_fields" with
  | some (.arr xs) =>
    let cust := xs.filterMap (fun j =>
      match j with
      | .str s => some (Json.obj
          [("name", .str s), ("hint", .null), ("required", .bool true)])
      | _ => none)
    intentResponseOfDict (setKey kvs "required_fields_customer" (.arr cust))
  | _ => none

/-- The shapes response.value can take (line 70): a dict, an already parsed
IntentResponse instance, or anything else (both isinstance checks fail). -/
inductive SdkValue where
  | dict (kvs : List (String × Json))
  | parsed (r : IntentResult)
  | other
deriving Repr

/-- A string content, abstracted by the outcomes of the two textual
extraction strategies get_intent applies to it: json.loads on the whole
string (none = raises), and — reached on any failure of the whole-string
attempt — the brace-to-brace regex search with DOTALL (none = no match;
some none = the group fails json.loads; some (some j) = it parses to j). -/
structure TextContent where
  parsedWhole : Option Json
  braceMatch : Option (Option Json)
deriving Repr

/-- The shapes of choices[0]'s content (lines 91-115): a parsed
IntentResponse instance, a dict, a string, or anything else (including a
missing/None content, for which every isinstance test fails). -/
inductive SdkContent where
  | parsed (r : IntentResult)
  | dict (kvs : List (String × Json))
  | text (t : TextContent)
  | other
deriving Repr

structure SdkChoice where
  content : SdkContent
deriving Repr

structure SdkResponse where
  value : Option SdkValue
  choices : List SdkChoice
deriving Repr

/-- The provider round trip: the call raised, or returned a response. -/
inductive ProviderOutcome where
  | raised
  | ok (resp : SdkResponse)
deriving Repr

/-- Outcome of one extraction stage of get_intent: a returned result, a
silent fall-through to the next stage, or an exception escaping to the outer
handler at line 149. -/
inductive StageOut where
  | ret (r : IntentResult)
  | fallthrough
  | raiseOut
deriving Repr

/-- Lines 70-87: the response.value stage.  A dict failing validation without
a legacy list falls through silently to the choices stage; a failing legacy
retry raises. -/
def valueStage : Option SdkValue → StageOut
  | some (.dict kvs) =>
    match intentResponseOfDict kvs with
    | some r => .ret r
    | none =>
      if hasLegacyList kvs then
        match legacyRetry kvs with
        | some r => .ret r
        | none => .raiseOut
      else .fallthrough
  | some (.parsed r) => .ret r
  | some .other => .fallthrough
  | none => .fallthrough

/-- Lines 102-114 (and their regex copy at 136-147): a dict content that
fails validation raises unless the legacy retry succeeds. -/
def dictContentStage (kvs : List (String × Json)) : StageOut :=
  match intentResponseOfDict kvs with
  | some r => .ret r
  | none =>
    if hasLegacyList kvs then
      match legacyRetry kvs with
      | some r => .ret r
      | none => .raiseOut
    else .raiseOut

/-- Lines 118-130: the whole-string attempt succeeds only when json.loads
yields a dict that validates directly or after legacy normalisation; every
other outcome (parse failure, non-dict, failed validation, failed retry)
raises into the handler at line 131, i.e. falls to the regex fallback. -/
def wholeStringResult (t : TextContent) : Option IntentResult :=
  match t.parsedWhole with
  | some (.obj kvs) =>
    match intentResponseOfDict kvs with
    | some r => some r
    | none => if hasLegacyList kvs then legacyRetry kvs else none
  | _ => none

/-- Lines 115-147: a string content. -/
def textStage (t : TextContent) : StageOut :=
  match wholeStringResult t with
  | some r => .ret r
  | none =>
    match t.braceMatch with
    | none => .fallthrough
    | some none => .raiseOut
    | some (some (.obj kvs)) => dictContentStage kvs
    | some (some _) => .raiseOut

/-- Lines 89-147: the choices stage reads only choices[0]. -/
def choicesStage : List SdkChoice → StageOut
  | [] => .fallthrough
  | choice :: _ =>
    match choice.content with
    | .parsed r => .ret r
    | .dict kvs => dictContentStage kvs
    | .text t => textStage t
    | .other => .fallthrough

/-- src/ai/integrations.py lines 34-156: get_intent over the provider call
outcome.  Every exception inside the big try is caught at line 149 (logged)
and control reaches the safe default at line 156, as does an empty or
unrecognised response. -/
def get_intent (outcome : ProviderOutcome) : IntentResult :=
  match outcome with
  | .raised => safeDefaultIntent
  | .ok resp =>
    match valueStage resp.value with
    | .ret r => r
    | .raiseOut => safeDefaultIntent
    | .fallthrough =>
      match choicesStage resp.choices with
      | .ret r => r
      | .raiseOut => safeDefaultIntent
      | .fallthrough => safeDefaultIntent

/-- The canonical result a response parses to, if any stage returns one. -/
def canonical_parse (resp : SdkResponse) : Option IntentResult :=
  match valueStage resp.value with
  | .ret r => some r
  | .raiseOut => none
  | .fallthrough =>
    match choicesStage resp.choices with
    | .ret r => some r
    | _ => none

/-- C5: get_intent is a total function of the provider outcome (no exception
escapes — every internal raise lands in the catch-all and yields the
default), it returns IntentResponse("unknown", 0.0) with action "no-action"
and no required fields or follow-up whenever the provider call raised or the
response admits no canonical parse, and otherwise returns the parsed
result. -/
theorem C5_get_intent_safe_default :
    (get_intent .raised = safeDefaultIntent ∧
      safeDefaultIntent =
        ⟨"unknown", 0, "no-action", none, none, none⟩) ∧
    (∀ resp : SdkResponse, canonical_parse resp = none →
      get_intent (.ok resp) = safeDefaultIntent) ∧
    (∀ (resp : SdkResponse) (r : IntentResult), canonical_parse resp = some r →
      get_intent (.ok resp) = r) := by
  refine ⟨⟨rfl, rfl⟩, ?_, ?_⟩
  · intro resp h
    simp only [get_intent]
    unfold canonical_parse at h
    rcases hv : valueStage resp.value with r | _ | _
    · rw [hv] at h
      exact Option.noConfusion h
    · rcases hc : choicesStage resp.choices with r2 | _ | _
      · rw [hv, hc] at h
        exact Option.noConfusion h
      · rfl
      · rfl
    · rfl
  · intro resp r h
    simp only [get_intent]
    unfold canonical_parse at h
    rcases hv : valueStage resp.value with r2 | _ | _
    · rw [hv] at h
      exact Option.some.inj h
    · rcases hc : choicesStage resp.choices with r3 | _ | _
      · rw [hv, hc] at h
        exact Option.some.inj h
      · rw [hv, hc] at h
        exact Option.noConfusion h
      · rw [hv, hc] at h
        exact Option.noConfusion h
    · rw [hv] at h
      exact Option.noConfusion h

/-- Witness for C5: the empty response has no parse and yields the default;
a response whose value is a validating dict parses and is returned. -/
theorem C5_get_intent_safe_default_witness :
    canonical_parse ⟨none, []⟩ = none ∧
    get_intent (.ok ⟨none, []⟩) = safeDefaultIntent ∧
    canonical_parse ⟨some (.dict [("intent", .str "greeting"),
        ("confidence", .num q075)]), []⟩ =
      some ⟨"greeting", q075, "no-action", none, none, none⟩ ∧
    get_intent (.ok ⟨some (.dict [("intent", .str "greeting"),
        ("confidence", .num q075)]), []⟩) =
      ⟨"greeting", q075, "no-action", none, none, none⟩ :=
  ⟨by decide,
   C5_get_intent_safe_default.2.1 ⟨none, []⟩ (by decide),
   by decide,
   C5_get_intent_safe_default.2.2 _ _ (by decide)⟩
